import Mathlib

/-!
Verification of the StarFive camera subsystem VIN module (stf_vin.c):
a shallow embedding of the per-line output buffer engine (state machine,
pending/ready queues, slot rotation, flush) and of the stream/power
reference counters, with theorems checking the natural-language
specification against the code.

Hardware register writes (`stf_vin_isp_set_yuv_addr`,
`stf_vin_wr_set_ping_addr`, `stf_vin_wr_set_pong_addr`, clock and
power-management calls), `vb2_buffer_done` and the diagnostic prints
(`dev_err`, `dev_warn`) are externally visible side effects; they are
modelled as an emitted list of events.
-/

namespace StfVin

/-- `enum vb2_buffer_state` (the part relevant to this driver). -/
inductive Vb2State
  | dequeued
  | queued
  | active
  | done
  | error
deriving DecidableEq, Repr

/-- `struct stfcamss_buffer`: one frame buffer descriptor.  `addr0`/`addr1`
are the plane DMA addresses (`addr[0]`, `addr[1]`); `vseq` and `ts` model
`vb.sequence` and `vb.vb2_buf.timestamp`, written by the completion
handler just before the buffer is returned. -/
structure StfBuffer where
  bid : Nat
  addr0 : Nat
  addr1 : Nat
  vseq : Nat
  ts : Nat
deriving DecidableEq, Repr

/-- `enum vin_output_state`. -/
inductive VinOutputState
  | off
  | reserved
  | single
  | continuous
  | stopping
  | idle
deriving DecidableEq, Repr

/-- `struct vin_output`: per-line output engine state.  The two hardware
slots `buf[0]`/`buf[1]` are `buf0`/`buf1`; `active_buf` (a `u32` toggled
with `!`) is a `Bool`; the two intrusive lists are Lean lists (front =
list head). -/
structure VinOutput where
  state : VinOutputState
  buf0 : Option StfBuffer
  buf1 : Option StfBuffer
  active_buf : Bool
  pending_bufs : List StfBuffer
  ready_bufs : List StfBuffer
  last_buffer : Option StfBuffer
  sequence : Nat
deriving DecidableEq, Repr

/-- Read slot `buf[i]`. -/
def getBuf (o : VinOutput) (i : Bool) : Option StfBuffer :=
  if i then o.buf1 else o.buf0

/-- Write slot `buf[i]`. -/
def setBuf (o : VinOutput) (i : Bool) (b : Option StfBuffer) : VinOutput :=
  if i then { o with buf1 := b } else { o with buf0 := b }

/-- Externally visible side effects of the engine. -/
inductive Event
  | bufDone (b : StfBuffer) (st : Vb2State)
  | setYuvAddr (y uv : Nat)
  | setPingAddr (a : Nat)
  | setPongAddr (a : Nat)
  | devWarn
  | devErr
  | pmGet
  | clkEnable
  | clkDisable
  | pmPut
  | allocDummy
  | freeDummy
  | setDummyAddr
  | setFrameSkip
  | streamSet
  | wrIrqEnable (en : Bool)
  | wrStreamSet
deriving DecidableEq, Repr

/-- `VIN_LINE_WR` (modelled from the header enum `vin_line_id`:
`VIN_LINE_WR = 0`, `VIN_LINE_ISP = 1`, `VIN_LINE_MAX = 2`). -/
def VIN_LINE_WR : Nat := 0

/-- `VIN_LINE_MAX` of the header enum `vin_line_id`. -/
def VIN_LINE_MAX : Nat := 2

/-- `enum isp_line_id` (the two values used here). -/
inductive IspLineId
  | invalid
  | src
deriving DecidableEq, Repr

/-- `vin_map_isp_line`. -/
def vin_map_isp_line (line : Nat) : IspLineId :=
  if VIN_LINE_WR < line ∧ line < VIN_LINE_MAX then .src else .invalid

/-- The DMA-address-sink writes performed for a new address pair, per the
branch on `vin_map_isp_line(line->id)` shared by `vin_output_init_addrs`
and `vin_change_buffer`: ISP lines get a Y/UV pair, the write line gets
ping/pong both set to `addr[0]`. -/
def installEvents (id a0 a1 : Nat) : List Event :=
  match vin_map_isp_line id with
  | .src => [.setYuvAddr a0 a1]
  | .invalid =>
    if id = VIN_LINE_WR then [.setPingAddr a0, .setPongAddr a0] else []

/-- Whether an event is a write to the DMA Address Sink. -/
def isHwAddrWrite : Event → Bool
  | .setYuvAddr _ _ => true
  | .setPingAddr _ => true
  | .setPongAddr _ => true
  | .setDummyAddr => true
  | _ => false

/-- `vin_buf_add_ready`: append to the ready queue. -/
def vin_buf_add_ready (o : VinOutput) (b : StfBuffer) : VinOutput :=
  { o with ready_bufs := o.ready_bufs ++ [b] }

/-- `vin_buf_get_ready`: pop the front of the ready queue. -/
def vin_buf_get_ready (o : VinOutput) : Option StfBuffer × VinOutput :=
  match o.ready_bufs with
  | [] => (none, o)
  | b :: rest => (some b, { o with ready_bufs := rest })

/-- `vin_buf_add_pending`: append to the pending queue. -/
def vin_buf_add_pending (o : VinOutput) (b : StfBuffer) : VinOutput :=
  { o with pending_bufs := o.pending_bufs ++ [b] }

/-- `vin_buf_get_pending`: pop the front of the pending queue. -/
def vin_buf_get_pending (o : VinOutput) : Option StfBuffer × VinOutput :=
  match o.pending_bufs with
  | [] => (none, o)
  | b :: rest => (some b, { o with pending_bufs := rest })

/-- `vin_output_init_addrs`: reset the active slot index and, when slot 0
holds a buffer, install its addresses into the DMA Address Sink. -/
def vin_output_init_addrs (id : Nat) (o : VinOutput) : VinOutput × List Event :=
  let o1 := { o with active_buf := false }
  match o1.buf0 with
  | none => (o1, [])
  | some b => (o1, installEvents id b.addr0 b.addr1)

/-- `vin_init_outputs`. -/
def vin_init_outputs (o : VinOutput) : VinOutput :=
  { o with
    state := .off
    buf0 := none
    buf1 := none
    active_buf := false
    pending_bufs := []
    ready_bufs := [] }

/-- `vin_enable_output`. -/
def vin_enable_output (id : Nat) (o : VinOutput) : VinOutput × List Event :=
  let o1 := { o with state := .idle }
  let (pb, o2) := vin_buf_get_pending o1
  let o3 := { o2 with buf0 := pb }
  let o4 :=
    if o3.buf0.isNone ∧ o3.buf1.isSome then
      { o3 with buf0 := o3.buf1, buf1 := none }
    else o3
  let o5 := if o4.buf0.isSome then { o4 with state := .single } else o4
  vin_output_init_addrs id { o5 with sequence := 0 }

/-- `vin_disable_output`. -/
def vin_disable_output (o : VinOutput) : VinOutput :=
  { o with state := .off }

/-- `vin_buf_update_on_last`. -/
def vin_buf_update_on_last (o : VinOutput) : VinOutput :=
  match o.state with
  | .continuous => { o with state := .single, active_buf := !o.active_buf }
  | .single => { o with state := .stopping }
  | _ => o

/-- `vin_buf_update_on_next`. -/
def vin_buf_update_on_next (o : VinOutput) : VinOutput :=
  match o.state with
  | .continuous => { o with active_buf := !o.active_buf }
  | _ => o

/-- `vin_buf_update_on_new`. -/
def vin_buf_update_on_new (id : Nat) (o : VinOutput) (new_buf : StfBuffer) :
    VinOutput × List Event :=
  match o.state with
  | .single => (vin_buf_add_pending o new_buf, [])
  | .idle =>
    if o.buf0.isNone then
      let (o2, es) := vin_output_init_addrs id { o with buf0 := some new_buf }
      ({ o2 with state := .single }, es)
    else
      (vin_buf_add_pending o new_buf, [])
  | .stopping =>
    let o1 :=
      match o.last_buffer with
      | some lb => setBuf { o with last_buffer := none } o.active_buf (some lb)
      | none => o
    (vin_buf_add_pending { o1 with state := .single } new_buf, [])
  | _ => (vin_buf_add_pending o new_buf, [])

/-- `vin_queue_buffer` (the lock is the serialization model; the body is
`vin_buf_update_on_new`). -/
def vin_queue_buffer (id : Nat) (o : VinOutput) (b : StfBuffer) :
    VinOutput × List Event :=
  vin_buf_update_on_new id o b

/-- `vin_buf_flush`: return every descriptor of the pending queue and then
of the ready queue with the given state, emptying both queues. -/
def vin_buf_flush (o : VinOutput) (st : Vb2State) : VinOutput × List Event :=
  ({ o with pending_bufs := [], ready_bufs := [] },
   o.pending_bufs.map (fun b => .bufDone b st) ++
     o.ready_bufs.map (fun b => .bufDone b st))

/-- `vin_flush_buffers`. -/
def vin_flush_buffers (o : VinOutput) (st : Vb2State) : VinOutput × List Event :=
  let (o1, e1) := vin_buf_flush o st
  let e2 :=
    match o1.buf0 with
    | some b => [Event.bufDone b st]
    | none => []
  let e3 :=
    match o1.buf1 with
    | some b => [Event.bufDone b st]
    | none => []
  let p4 :=
    match o1.last_buffer with
    | some b => ({ o1 with last_buffer := none }, [Event.bufDone b st])
    | none => (o1, ([] : List Event))
  ({ p4.1 with buf0 := none, buf1 := none }, e1 ++ e2 ++ e3 ++ p4.2)

/-- The body of the `while ((ready_buf = vin_buf_get_ready(output)))` loop
of `vin_buffer_done`: drain the list, stamping each buffer with the shared
timestamp and the running sequence number, and return each as `DONE`.
Returns the final sequence counter and the emitted events. -/
def vin_buffer_done_drain (seq ts : Nat) : List StfBuffer → Nat × List Event
  | [] => (seq, [])
  | b :: rest =>
    let r := vin_buffer_done_drain (seq + 1) ts rest
    (r.1, .bufDone { b with ts := ts, vseq := seq } .done :: r.2)

/-- `vin_buffer_done`.  `ts` is the value of `ktime_get_ns()` captured at
handler entry. -/
def vin_buffer_done (o : VinOutput) (ts : Nat) : VinOutput × List Event :=
  if o.state = .off ∨ o.state = .reserved then (o, [])
  else
    let r := vin_buffer_done_drain o.sequence ts o.ready_bufs
    ({ o with ready_bufs := [], sequence := r.1 }, r.2)

/-- The rotation performed by `vin_change_buffer` once a non-empty slot
`activeIndex` holding `ready_buf` has been selected: pull the next pending
buffer into the slot, apply the on-last/on-next transition, and either
freeze `ready_buf` as `last_buffer` (state `STOPPING`) or install the new
addresses and append `ready_buf` to the ready queue. -/
def vin_change_buffer_rotate (id : Nat) (o : VinOutput) (activeIndex : Bool)
    (ready_buf : StfBuffer) : VinOutput × List Event :=
  let (nb, o1) := vin_buf_get_pending o
  let o2 := setBuf o1 activeIndex nb
  let newAddr :=
    match nb with
    | none => (ready_buf.addr0, ready_buf.addr1)
    | some b => (b.addr0, b.addr1)
  let o3 :=
    match nb with
    | none => vin_buf_update_on_last o2
    | some _ => vin_buf_update_on_next o2
  if o3.state = .stopping then
    ({ o3 with last_buffer := some ready_buf }, [])
  else
    (vin_buf_add_ready o3 ready_buf, installEvents id newAddr.1 newAddr.2)

/-- `vin_change_buffer`. -/
def vin_change_buffer (id : Nat) (o : VinOutput) : VinOutput × List Event :=
  if o.state = .off ∨ o.state = .stopping ∨ o.state = .reserved ∨
      o.state = .idle then
    (o, [])
  else
    match getBuf o o.active_buf with
    | some rb => vin_change_buffer_rotate id o o.active_buf rb
    | none =>
      match getBuf o (!o.active_buf) with
      | some rb =>
        let r := vin_change_buffer_rotate id o (!o.active_buf) rb
        (r.1, .devWarn :: r.2)
      | none => (o, [.devWarn, .devErr])

/-- Per-line state used by `vin_set_power`/`vin_set_stream`: the line id,
the two per-line reference counters (C `int`s, hence `Int`) and the output
engine state. -/
structure VinLineState where
  id : Nat
  power_count : Int
  stream_count : Int
  output : VinOutput
deriving DecidableEq, Repr

/-- Device-level state used by `vin_set_power`/`vin_set_stream`: the
device power count and the dummy-buffer-module stream count relevant to
the line at hand. -/
structure VinDevState where
  power_count : Int
  dummy_stream_count : Int
deriving DecidableEq, Repr

/-- `vin_set_power`.  `pwrOn` is the `on` argument, `link_ok` models
`vin_get_link(&sd->entity) != LINK_ERROR`.  Returns the updated line and
device state and the emitted events. -/
def vin_set_power (pwrOn link_ok : Bool) (l : VinLineState) (d : VinDevState) :
    VinLineState × VinDevState × List Event :=
  let p1 :=
    if pwrOn then
      let l1 :=
        if l.power_count = 0 then { l with output := vin_init_outputs l.output }
        else l
      ({ l1 with power_count := l1.power_count + 1 }, ([] : List Event))
    else
      if l.power_count = 0 then (l, [Event.devErr])
      else ({ l with power_count := l.power_count - 1 }, [])
  let p2 :=
    if ¬link_ok then (d, ([] : List Event))
    else if pwrOn then
      let ev := if d.power_count = 0 then [Event.pmGet, Event.clkEnable] else []
      ({ d with power_count := d.power_count + 1 }, ev)
    else
      if d.power_count = 0 then (d, [Event.devErr])
      else
        let ev :=
          if d.power_count = 1 then [Event.clkDisable, Event.pmPut] else []
        ({ d with power_count := d.power_count - 1 }, ev)
  (p1.1, p2.1, p1.2 ++ p2.2)

/-- `vin_set_stream`.  `enable` is the request, `link_ok` models
`vin_get_link(&sd->entity) != LINK_ERROR`.  Dummy-buffer allocation,
dummy-address installation and the frame-skip store are modelled as
events; the final `vin_enable_output`/`vin_disable_output` call is
included. -/
def vin_set_stream (enable link_ok : Bool) (l : VinLineState)
    (d : VinDevState) : VinLineState × VinDevState × List Event :=
  let p1 :=
    if enable then
      let ev :=
        if d.dummy_stream_count = 0 then
          [Event.allocDummy, Event.setDummyAddr, Event.setFrameSkip]
        else []
      ({ d with dummy_stream_count := d.dummy_stream_count + 1 }, ev)
    else
      let ev :=
        if d.dummy_stream_count = 1 then [Event.freeDummy, Event.setDummyAddr]
        else [Event.setDummyAddr]
      ({ d with dummy_stream_count := d.dummy_stream_count - 1 }, ev)
  let p2 :=
    if ¬link_ok then (l, ([] : List Event))
    else if enable then
      let ev :=
        if l.stream_count = 0 then
          Event.streamSet ::
            (if l.id = VIN_LINE_WR then
              [Event.wrIrqEnable true, Event.wrStreamSet]
            else [])
        else []
      ({ l with stream_count := l.stream_count + 1 }, ev)
    else
      let ev :=
        if l.stream_count = 1 ∧ l.id = VIN_LINE_WR then
          [Event.wrIrqEnable false]
        else []
      ({ l with stream_count := l.stream_count - 1 }, ev)
  let l2 := p2.1
  let p3 :=
    if enable then vin_enable_output l2.id l2.output
    else (vin_disable_output l2.output, ([] : List Event))
  ({ l2 with output := p3.1 }, p1.1, p1.2 ++ p2.2 ++ p3.2)

/-- One engine operation on a line's output, as dispatched by the
framework: stream on/off (`vin_enable_output`/`vin_disable_output`),
`vin_queue_buffer`, the two interrupt handlers, and `vin_flush_buffers`. -/
inductive EngineOp
  | enable
  | disable
  | queue (b : StfBuffer)
  | frameDone (ts : Nat)
  | changeBuffer
  | flush (st : Vb2State)
deriving DecidableEq, Repr

/-- The state reached after one engine operation. -/
def engineStep (id : Nat) (o : VinOutput) : EngineOp → VinOutput
  | .enable => (vin_enable_output id o).1
  | .disable => vin_disable_output o
  | .queue b => (vin_queue_buffer id o b).1
  | .frameDone ts => (vin_buffer_done o ts).1
  | .changeBuffer => (vin_change_buffer id o).1
  | .flush st => (vin_flush_buffers o st).1

/-- The state reached after a sequence of engine operations. -/
def engineRun (id : Nat) (o : VinOutput) : List EngineOp → VinOutput
  | [] => o
  | op :: ops => engineRun id (engineStep id o op) ops

/-- Queue a list of buffers in order with `vin_queue_buffer`. -/
def vin_queue_list (id : Nat) (o : VinOutput) : List StfBuffer → VinOutput
  | [] => o
  | b :: bs => vin_queue_list id (vin_queue_buffer id o b).1 bs

/-- The state after `n` rotation events (`vin_change_buffer`). -/
def rotIter (id : Nat) : Nat → VinOutput → VinOutput
  | 0, o => o
  | n + 1, o => rotIter id n (vin_change_buffer id o).1

/-- The events emitted by `n` consecutive rotation events. -/
def rotTrace (id : Nat) : Nat → VinOutput → List Event
  | 0, _ => []
  | n + 1, o => (vin_change_buffer id o).2 ++ rotTrace id n (vin_change_buffer id o).1

/-- A line ready to rotate: streaming in `SINGLE` with the active slot
occupied, or in `CONTINUOUS` with both slots occupied. -/
def RotReady (o : VinOutput) : Prop :=
  (o.state = .single ∧ (getBuf o o.active_buf).isSome) ∨
    (o.state = .continuous ∧ o.buf0.isSome ∧ o.buf1.isSome)

/-- The descriptor identities held by the two queues and the two slots. -/
def queueIds (o : VinOutput) : List Nat :=
  (o.pending_bufs ++ o.ready_bufs ++ o.buf0.toList ++ o.buf1.toList).map
    (fun b => b.bid)

/-- No descriptor is a member of more than one queue or slot (and none
twice in the same queue). -/
def QueuesWF (o : VinOutput) : Prop := (queueIds o).Nodup

/-- The invariant of claim C9: the double-buffering state and the second
slot are never used. -/
def SingleSlotInv (o : VinOutput) : Prop :=
  o.state ≠ .continuous ∧ o.active_buf = false ∧ o.buf1 = none

/-- An output with nothing queued and nothing in flight. -/
def emptyOut : VinOutput :=
  { state := .off
    buf0 := none
    buf1 := none
    active_buf := false
    pending_bufs := []
    ready_bufs := []
    last_buffer := none
    sequence := 0 }

/-- Concrete descriptors for witnesses. -/
def bufA : StfBuffer := { bid := 1, addr0 := 100, addr1 := 104, vseq := 0, ts := 0 }

/-- Concrete descriptor for witnesses. -/
def bufB : StfBuffer := { bid := 2, addr0 := 200, addr1 := 204, vseq := 0, ts := 0 }

/-- Concrete descriptor for witnesses. -/
def bufC : StfBuffer := { bid := 3, addr0 := 300, addr1 := 304, vseq := 0, ts := 0 }

/-- A line state with all reference counters at zero. -/
def lineZero : VinLineState :=
  { id := VIN_LINE_WR, power_count := 0, stream_count := 0, output := emptyOut }

/-- A device state with all reference counters at zero. -/
def devZero : VinDevState := { power_count := 0, dummy_stream_count := 0 }

@[simp]
theorem getBuf_setBuf_same (o : VinOutput) (i : Bool) (v : Option StfBuffer) :
    getBuf (setBuf o i v) i = v := by
  cases i <;> simp [getBuf, setBuf]

@[simp]
theorem getBuf_setBuf_not (o : VinOutput) (i : Bool) (v : Option StfBuffer) :
    getBuf (setBuf o i v) (!i) = getBuf o (!i) := by
  cases i <;> simp [getBuf, setBuf]

@[simp]
theorem setBuf_state (o : VinOutput) (i : Bool) (v : Option StfBuffer) :
    (setBuf o i v).state = o.state := by
  cases i <;> rfl

@[simp]
theorem setBuf_active (o : VinOutput) (i : Bool) (v : Option StfBuffer) :
    (setBuf o i v).active_buf = o.active_buf := by
  cases i <;> rfl

@[simp]
theorem setBuf_pending (o : VinOutput) (i : Bool) (v : Option StfBuffer) :
    (setBuf o i v).pending_bufs = o.pending_bufs := by
  cases i <;> rfl

@[simp]
theorem setBuf_ready (o : VinOutput) (i : Bool) (v : Option StfBuffer) :
    (setBuf o i v).ready_bufs = o.ready_bufs := by
  cases i <;> rfl

@[simp]
theorem setBuf_last (o : VinOutput) (i : Bool) (v : Option StfBuffer) :
    (setBuf o i v).last_buffer = o.last_buffer := by
  cases i <;> rfl

@[simp]
theorem setBuf_sequence (o : VinOutput) (i : Bool) (v : Option StfBuffer) :
    (setBuf o i v).sequence = o.sequence := by
  cases i <;> rfl

@[simp]
theorem setBuf_false_buf1 (o : VinOutput) (v : Option StfBuffer) :
    (setBuf o false v).buf1 = o.buf1 := rfl

@[simp]
theorem setBuf_false_buf0 (o : VinOutput) (v : Option StfBuffer) :
    (setBuf o false v).buf0 = v := rfl

/-- `vin_change_buffer` in a no-rotation state returns at once. -/
theorem change_buffer_gate (id : Nat) (o : VinOutput)
    (h : o.state = .off ∨ o.state = .stopping ∨ o.state = .reserved ∨
      o.state = .idle) :
    vin_change_buffer id o = (o, []) := by
  simp [vin_change_buffer, h]

/-- `vin_change_buffer` with a populated active slot runs the rotation on
that slot. -/
theorem change_buffer_eq_rotate (id : Nat) (o : VinOutput) (rb : StfBuffer)
    (hs : o.state = .single ∨ o.state = .continuous)
    (hb : getBuf o o.active_buf = some rb) :
    vin_change_buffer id o = vin_change_buffer_rotate id o o.active_buf rb := by
  rcases hs with hs | hs <;> simp [vin_change_buffer, hs, hb]

/-- `vin_change_buffer` with an empty active slot fails over to the other
slot, warning first. -/
theorem change_buffer_failover (id : Nat) (o : VinOutput) (rb : StfBuffer)
    (hs : o.state = .single ∨ o.state = .continuous)
    (h0 : getBuf o o.active_buf = none)
    (h1 : getBuf o (!o.active_buf) = some rb) :
    vin_change_buffer id o =
      ((vin_change_buffer_rotate id o (!o.active_buf) rb).1,
       .devWarn :: (vin_change_buffer_rotate id o (!o.active_buf) rb).2) := by
  rcases hs with hs | hs <;> simp [vin_change_buffer, hs, h0, h1]

/-- `vin_change_buffer` with both slots empty reports and aborts with no
state change. -/
theorem change_buffer_abort (id : Nat) (o : VinOutput)
    (hs : o.state = .single ∨ o.state = .continuous)
    (h0 : getBuf o o.active_buf = none)
    (h1 : getBuf o (!o.active_buf) = none) :
    vin_change_buffer id o = (o, [.devWarn, .devErr]) := by
  rcases hs with hs | hs <;> simp [vin_change_buffer, hs, h0, h1]

/-- Rotation in `SINGLE` with no pending buffer: the engine freezes the
rotated-out buffer as `last_buffer` and moves to `STOPPING`, installing
nothing. -/
theorem rotate_single_nil (id : Nat) (o : VinOutput) (i : Bool) (rb : StfBuffer)
    (hs : o.state = .single) (hp : o.pending_bufs = []) :
    vin_change_buffer_rotate id o i rb =
      ({ setBuf o i none with state := .stopping, last_buffer := some rb },
       []) := by
  cases i <;>
    simp [vin_change_buffer_rotate, vin_buf_get_pending, hp, setBuf,
      vin_buf_update_on_last, hs]

/-- Rotation in `SINGLE` with a pending buffer: the pending head takes the
slot, its addresses are installed, the rotated-out buffer joins the ready
queue. -/
theorem rotate_single_cons (id : Nat) (o : VinOutput) (i : Bool)
    (rb p : StfBuffer) (ps : List StfBuffer)
    (hs : o.state = .single) (hp : o.pending_bufs = p :: ps) :
    vin_change_buffer_rotate id o i rb =
      ({ setBuf { o with pending_bufs := ps } i (some p) with
          ready_bufs := o.ready_bufs ++ [rb] },
       installEvents id p.addr0 p.addr1) := by
  cases i <;>
    simp [vin_change_buffer_rotate, vin_buf_get_pending, hp, setBuf,
      vin_buf_update_on_next, hs, vin_buf_add_ready]

/-- Rotation in `CONTINUOUS` with no pending buffer: drop to `SINGLE`,
toggle the active slot, re-install the rotated-out buffer's addresses and
append it to the ready queue. -/
theorem rotate_cont_nil (id : Nat) (o : VinOutput) (i : Bool) (rb : StfBuffer)
    (hs : o.state = .continuous) (hp : o.pending_bufs = []) :
    vin_change_buffer_rotate id o i rb =
      ({ setBuf o i none with
          state := .single
          active_buf := !o.active_buf
          ready_bufs := o.ready_bufs ++ [rb] },
       installEvents id rb.addr0 rb.addr1) := by
  cases i <;>
    simp [vin_change_buffer_rotate, vin_buf_get_pending, hp, setBuf,
      vin_buf_update_on_last, hs, vin_buf_add_ready]

/-- Rotation in `CONTINUOUS` with a pending buffer: the pending head takes
the slot, the active slot toggles, addresses are installed, the
rotated-out buffer joins the ready queue. -/
theorem rotate_cont_cons (id : Nat) (o : VinOutput) (i : Bool)
    (rb p : StfBuffer) (ps : List StfBuffer)
    (hs : o.state = .continuous) (hp : o.pending_bufs = p :: ps) :
    vin_change_buffer_rotate id o i rb =
      ({ setBuf { o with pending_bufs := ps } i (some p) with
          active_buf := !o.active_buf
          ready_bufs := o.ready_bufs ++ [rb] },
       installEvents id p.addr0 p.addr1) := by
  cases i <;>
    simp [vin_change_buffer_rotate, vin_buf_get_pending, hp, setBuf,
      vin_buf_update_on_next, hs, vin_buf_add_ready]

/-- The sequence counter after draining: start plus number drained. -/
theorem vin_buffer_done_drain_fst (ts : Nat) (l : List StfBuffer) :
    ∀ seq, (vin_buffer_done_drain seq ts l).1 = seq + l.length := by
  induction l with
  | nil => intro seq; simp [vin_buffer_done_drain]
  | cons b rest ih =>
    intro seq
    simp [vin_buffer_done_drain, ih]
    omega

/-- Draining returns one event per ready buffer. -/
theorem vin_buffer_done_drain_length (ts : Nat) (l : List StfBuffer) :
    ∀ seq, (vin_buffer_done_drain seq ts l).2.length = l.length := by
  induction l with
  | nil => intro seq; simp [vin_buffer_done_drain]
  | cons b rest ih => intro seq; simp [vin_buffer_done_drain, ih]

/-- The i-th drained event returns the i-th ready buffer, stamped with the
shared timestamp and sequence number `seq + i`, as `DONE`. -/
theorem vin_buffer_done_drain_get (ts : Nat) (l : List StfBuffer) :
    ∀ (seq i : Nat) (b : StfBuffer), l[i]? = some b →
      (vin_buffer_done_drain seq ts l).2[i]? =
        some (Event.bufDone { b with ts := ts, vseq := seq + i } .done) := by
  induction l with
  | nil => intro seq i b h; simp at h
  | cons hd rest ih =>
    intro seq i b h
    cases i with
    | zero =>
      simp at h
      subst h
      simp [vin_buffer_done_drain]
    | succ n =>
      simp at h
      have := ih (seq + 1) n b h
      simp [vin_buffer_done_drain]
      simpa [Nat.add_assoc, Nat.add_comm 1 n] using this

/-- Claim C1 (amended): `vin_flush_buffers` returns the descriptors held in
the pending queue, the ready queue, both slots and the frozen
`last_buffer`, in that order and each exactly once, all with the given
abort status; it empties both queues and clears both slots and
`last_buffer`; the output state (and the rest of the output) is left
unchanged — resetting it to `OFF` is done by `vin_disable_output`, not by
the flush itself. -/
theorem c1_flush_returns_all_and_clears (o : VinOutput) (st : Vb2State) :
    vin_flush_buffers o st =
      ({ o with
          pending_bufs := []
          ready_bufs := []
          buf0 := none
          buf1 := none
          last_buffer := none },
       (o.pending_bufs ++ o.ready_bufs ++ o.buf0.toList ++ o.buf1.toList ++
          o.last_buffer.toList).map (fun b => .bufDone b st)) := by
  cases h0 : o.buf0 <;> cases h1 : o.buf1 <;> cases hl : o.last_buffer <;>
    simp [vin_flush_buffers, vin_buf_flush, h0, h1, hl]

/-- Claim C1, counterexample to the claim as stated: flushing a line whose
output state is `SINGLE` leaves the state `SINGLE`, not `OFF` —
`vin_flush_buffers` never writes `output->state`. -/
theorem c1_flush_state_not_off_cex :
    (vin_flush_buffers { emptyOut with state := .single } .error).1.state ≠
      VinOutputState.off := by
  decide

/-- Claim C3: `vin_buffer_done` is a no-op in `OFF`/`RESERVED`; otherwise
it empties the ready queue in FIFO order, advancing the per-line sequence
counter by one per buffer, stamps every buffer drained in the invocation
with the single timestamp captured at entry, and returns each as
successfully completed (`DONE`). -/
theorem c3_buffer_done_drains_ready (o : VinOutput) (ts : Nat) :
    ((o.state = .off ∨ o.state = .reserved) → vin_buffer_done o ts = (o, [])) ∧
    (¬(o.state = .off ∨ o.state = .reserved) →
      (vin_buffer_done o ts).1 =
        { o with
            ready_bufs := []
            sequence := o.sequence + o.ready_bufs.length } ∧
      (vin_buffer_done o ts).2.length = o.ready_bufs.length ∧
      ∀ (i : Nat) (b : StfBuffer), o.ready_bufs[i]? = some b →
        (vin_buffer_done o ts).2[i]? =
          some (Event.bufDone { b with ts := ts, vseq := o.sequence + i } .done)) := by
  constructor
  · intro h
    simp [vin_buffer_done, h]
  · intro h
    refine ⟨?_, ?_, ?_⟩
    · simp [vin_buffer_done, h, vin_buffer_done_drain_fst]
    · simp [vin_buffer_done, h, vin_buffer_done_drain_length]
    · intro i b hb
      simp [vin_buffer_done, h]
      exact vin_buffer_done_drain_get ts o.ready_bufs o.sequence i b hb

/-- Witness for C3 at a concrete line: two ready buffers, counter at 5,
timestamp 9: the queue empties, the counter moves to 7, and the second
buffer comes back with sequence 6, timestamp 9, state `DONE`. -/
theorem c3_buffer_done_drains_ready_witness :
    ¬(({ emptyOut with
          state := .single
          ready_bufs := [bufA, bufB]
          sequence := 5 } : VinOutput).state = .off ∨
      ({ emptyOut with
          state := .single
          ready_bufs := [bufA, bufB]
          sequence := 5 } : VinOutput).state = .reserved) ∧
    (vin_buffer_done
        { emptyOut with
            state := .single
            ready_bufs := [bufA, bufB]
            sequence := 5 } 9).1.sequence = 7 ∧
    (vin_buffer_done
        { emptyOut with
            state := .single
            ready_bufs := [bufA, bufB]
            sequence := 5 } 9).2[1]? =
      some (Event.bufDone { bufB with ts := 9, vseq := 6 } .done) := by
  refine ⟨by decide, ?_, ?_⟩
  · rw [((c3_buffer_done_drains_ready
      { emptyOut with
          state := .single
          ready_bufs := [bufA, bufB]
          sequence := 5 } 9).2 (by decide)).1]
    rfl
  · exact ((c3_buffer_done_drains_ready
      { emptyOut with
          state := .single
          ready_bufs := [bufA, bufB]
          sequence := 5 } 9).2 (by decide)).2.2 1 bufB (by decide)

/-- Claim C6: queuing a buffer while the output state is `STOPPING`
restores the frozen `last_buffer` (when present) into the active slot and
clears it, moves the state to `SINGLE`, and appends the new buffer to the
pending queue; nothing is installed into hardware and the other slot and
the ready queue are untouched. -/
theorem c6_queue_in_stopping_restores_last (id : Nat) (o : VinOutput)
    (b : StfBuffer) (h : o.state = .stopping) :
    (vin_queue_buffer id o b).2 = [] ∧
    (vin_queue_buffer id o b).1.state = .single ∧
    (vin_queue_buffer id o b).1.pending_bufs = o.pending_bufs ++ [b] ∧
    (vin_queue_buffer id o b).1.last_buffer = none ∧
    (∀ lb, o.last_buffer = some lb →
      getBuf (vin_queue_buffer id o b).1 o.active_buf = some lb) ∧
    (o.last_buffer = none →
      getBuf (vin_queue_buffer id o b).1 o.active_buf = getBuf o o.active_buf) ∧
    getBuf (vin_queue_buffer id o b).1 (!o.active_buf) =
      getBuf o (!o.active_buf) ∧
    (vin_queue_buffer id o b).1.ready_bufs = o.ready_bufs := by
  cases hl : o.last_buffer <;> cases ha : o.active_buf <;>
    simp [vin_queue_buffer, vin_buf_update_on_new, h, hl, ha,
      vin_buf_add_pending, getBuf, setBuf]

/-- Witness for C6: a stopping line with frozen `bufA` receiving `bufB`
moves to `SINGLE` with `bufA` back in the active slot. -/
theorem c6_queue_in_stopping_restores_last_witness :
    ({ emptyOut with state := .stopping, last_buffer := some bufA }
        : VinOutput).state = .stopping ∧
    (vin_queue_buffer 0
        { emptyOut with state := .stopping, last_buffer := some bufA }
        bufB).1.state = .single ∧
    getBuf (vin_queue_buffer 0
        { emptyOut with state := .stopping, last_buffer := some bufA }
        bufB).1
      ({ emptyOut with state := .stopping, last_buffer := some bufA }
        : VinOutput).active_buf = some bufA := by
  refine ⟨rfl, ?_, ?_⟩
  · exact (c6_queue_in_stopping_restores_last 0
      { emptyOut with state := .stopping, last_buffer := some bufA }
      bufB rfl).2.1
  · exact (c6_queue_in_stopping_restores_last 0
      { emptyOut with state := .stopping, last_buffer := some bufA }
      bufB rfl).2.2.2.2.1 bufA rfl

/-- Claim C8: from `OFF` with both queues and both slots empty,
`vin_enable_output` moves the line to `IDLE` writing nothing to the DMA
Address Sink, and `vin_disable_output` then returns it to `OFF` (it emits
nothing by construction). -/
theorem c8_enable_disable_roundtrip (id : Nat) (o : VinOutput)
    (_hst : o.state = .off) (hp : o.pending_bufs = []) (_hr : o.ready_bufs = [])
    (h0 : o.buf0 = none) (h1 : o.buf1 = none) :
    (vin_enable_output id o).1.state = .idle ∧
    (vin_enable_output id o).2 = [] ∧
    (vin_disable_output (vin_enable_output id o).1).state = .off := by
  refine ⟨?_, ?_, ?_⟩ <;>
    simp [vin_enable_output, vin_buf_get_pending, hp, h0, h1,
      vin_output_init_addrs, vin_disable_output]

/-- Witness for C8 on the empty output. -/
theorem c8_enable_disable_roundtrip_witness :
    emptyOut.state = .off ∧ emptyOut.pending_bufs = [] ∧
    emptyOut.ready_bufs = [] ∧ emptyOut.buf0 = none ∧ emptyOut.buf1 = none ∧
    (vin_enable_output 0 emptyOut).1.state = .idle ∧
    (vin_enable_output 0 emptyOut).2 = [] ∧
    (vin_disable_output (vin_enable_output 0 emptyOut).1).state = .off := by
  have h := c8_enable_disable_roundtrip 0 emptyOut rfl rfl rfl rfl rfl
  exact ⟨rfl, rfl, rfl, rfl, rfl, h.1, h.2.1, h.2.2⟩

/-- Claim C10: queuing while the output state is `OFF` or `RESERVED`
appends the buffer to the pending queue and changes nothing else: state,
slots, `last_buffer` are untouched and no event (in particular no hardware
address write) is emitted. -/
theorem c10_queue_while_off_reserved (id : Nat) (o : VinOutput)
    (b : StfBuffer) (h : o.state = .off ∨ o.state = .reserved) :
    vin_queue_buffer id o b =
      ({ o with pending_bufs := o.pending_bufs ++ [b] }, []) := by
  rcases h with h | h <;>
    simp [vin_queue_buffer, vin_buf_update_on_new, h, vin_buf_add_pending]

/-- Witness for C10 on the empty (state `OFF`) output. -/
theorem c10_queue_while_off_reserved_witness :
    emptyOut.state = .off ∧
    vin_queue_buffer 0 emptyOut bufA =
      ({ emptyOut with pending_bufs := [bufA] }, []) := by
  refine ⟨rfl, ?_⟩
  have h := c10_queue_while_off_reserved 0 emptyOut bufA (Or.inl rfl)
  simpa using h

/-- Claim C2: rotation in `SINGLE`/`CONTINUOUS` with a populated active
slot.  With no pending buffer the on-last transition applies
(`CONTINUOUS → SINGLE` toggling the active slot, `SINGLE → STOPPING`);
when the result is `STOPPING` nothing is written to the DMA Address Sink
and the rotated-out buffer is frozen as `last_buffer` instead of being
queued for return.  With a pending buffer, it is pulled into the active
slot, its addresses are installed, the on-next transition applies
(`CONTINUOUS` toggles the active slot, `SINGLE` is unchanged), and the
previous active buffer is appended to the ready queue. -/
theorem c2_change_buffer_rotation (id : Nat) (o : VinOutput) (rb : StfBuffer)
    (hs : o.state = .single ∨ o.state = .continuous)
    (hb : getBuf o o.active_buf = some rb) :
    (o.pending_bufs = [] →
      (o.state = .single →
        vin_change_buffer id o =
          ({ setBuf o o.active_buf none with
              state := .stopping
              last_buffer := some rb }, [])) ∧
      (o.state = .continuous →
        vin_change_buffer id o =
          ({ setBuf o o.active_buf none with
              state := .single
              active_buf := !o.active_buf
              ready_bufs := o.ready_bufs ++ [rb] },
           installEvents id rb.addr0 rb.addr1))) ∧
    (∀ (p : StfBuffer) (ps : List StfBuffer), o.pending_bufs = p :: ps →
      (o.state = .single →
        vin_change_buffer id o =
          ({ setBuf { o with pending_bufs := ps } o.active_buf (some p) with
              ready_bufs := o.ready_bufs ++ [rb] },
           installEvents id p.addr0 p.addr1)) ∧
      (o.state = .continuous →
        vin_change_buffer id o =
          ({ setBuf { o with pending_bufs := ps } o.active_buf (some p) with
              active_buf := !o.active_buf
              ready_bufs := o.ready_bufs ++ [rb] },
           installEvents id p.addr0 p.addr1))) := by
  have hd := change_buffer_eq_rotate id o rb hs hb
  constructor
  · intro hp
    constructor
    · intro h1
      rw [hd, rotate_single_nil id o o.active_buf rb h1 hp]
    · intro h1
      rw [hd, rotate_cont_nil id o o.active_buf rb h1 hp]
  · intro p ps hp
    constructor
    · intro h1
      rw [hd, rotate_single_cons id o o.active_buf rb p ps h1 hp]
    · intro h1
      rw [hd, rotate_cont_cons id o o.active_buf rb p ps h1 hp]

/-- Witness for C2: a `SINGLE` line with `bufA` active and empty pending
queue rotates into `STOPPING`, freezing `bufA` and emitting nothing; with
`bufB` pending it instead installs `bufB` and readies `bufA`. -/
theorem c2_change_buffer_rotation_witness :
    getBuf { emptyOut with state := .single, buf0 := some bufA }
        ({ emptyOut with state := .single, buf0 := some bufA }
          : VinOutput).active_buf = some bufA ∧
    vin_change_buffer 0 { emptyOut with state := .single, buf0 := some bufA } =
      ({ emptyOut with
          state := .stopping
          buf0 := none
          last_buffer := some bufA }, []) ∧
    vin_change_buffer 0
        { emptyOut with
            state := .single
            buf0 := some bufA
            pending_bufs := [bufB] } =
      ({ emptyOut with
          state := .single
          buf0 := some bufB
          ready_bufs := [bufA] },
       [.setPingAddr 200, .setPongAddr 200]) := by
  refine ⟨rfl, ?_, ?_⟩
  · have h := ((c2_change_buffer_rotation 0
      { emptyOut with state := .single, buf0 := some bufA } bufA
      (Or.inl rfl) rfl).1 rfl).1 rfl
    simpa [setBuf, emptyOut] using h
  · have h := ((c2_change_buffer_rotation 0
      { emptyOut with
          state := .single
          buf0 := some bufA
          pending_bufs := [bufB] } bufA
      (Or.inl rfl) rfl).2 bufB [] rfl).1 rfl
    simpa [setBuf, emptyOut, installEvents, vin_map_isp_line, VIN_LINE_WR,
      VIN_LINE_MAX, bufB] using h

/-- Claim C5: the rotation handler is a no-op in `OFF`, `STOPPING`,
`RESERVED` and `IDLE`; in `SINGLE`/`CONTINUOUS` with an empty active slot
it fails over to the other slot's buffer when one is present (warning
first), and with both slots empty it aborts, reporting but changing
nothing and writing no addresses. -/
theorem c5_change_buffer_gate_and_underflow (id : Nat) (o : VinOutput) :
    ((o.state = .off ∨ o.state = .stopping ∨ o.state = .reserved ∨
        o.state = .idle) →
      vin_change_buffer id o = (o, [])) ∧
    ((o.state = .single ∨ o.state = .continuous) →
      getBuf o o.active_buf = none →
      ((getBuf o (!o.active_buf) = none →
          vin_change_buffer id o = (o, [.devWarn, .devErr])) ∧
        (∀ rb : StfBuffer, getBuf o (!o.active_buf) = some rb →
          (o.state = .single → o.pending_bufs = [] →
            vin_change_buffer id o =
              ({ setBuf o (!o.active_buf) none with
                  state := .stopping
                  last_buffer := some rb }, [.devWarn])) ∧
          (o.state = .continuous → o.pending_bufs = [] →
            vin_change_buffer id o =
              ({ setBuf o (!o.active_buf) none with
                  state := .single
                  active_buf := !o.active_buf
                  ready_bufs := o.ready_bufs ++ [rb] },
               .devWarn :: installEvents id rb.addr0 rb.addr1)) ∧
          (∀ (p : StfBuffer) (ps : List StfBuffer), o.pending_bufs = p :: ps →
            (vin_change_buffer id o).1.pending_bufs = ps ∧
            getBuf (vin_change_buffer id o).1 (!o.active_buf) = some p ∧
            (vin_change_buffer id o).1.ready_bufs = o.ready_bufs ++ [rb] ∧
            (vin_change_buffer id o).2 =
              .devWarn :: installEvents id p.addr0 p.addr1)))) := by
  constructor
  · exact change_buffer_gate id o
  · intro hs h0
    refine ⟨change_buffer_abort id o hs h0, ?_⟩
    intro rb h1
    have hd := change_buffer_failover id o rb hs h0 h1
    refine ⟨?_, ?_, ?_⟩
    · intro hsg hp
      rw [hd, rotate_single_nil id o (!o.active_buf) rb hsg hp]
    · intro hsg hp
      rw [hd, rotate_cont_nil id o (!o.active_buf) rb hsg hp]
    · intro p ps hp
      rcases hs with hsg | hsg
      · rw [hd, rotate_single_cons id o (!o.active_buf) rb p ps hsg hp]
        cases o.active_buf <;> simp [getBuf, setBuf]
      · rw [hd, rotate_cont_cons id o (!o.active_buf) rb p ps hsg hp]
        cases o.active_buf <;> simp [getBuf, setBuf]

/-- Witness for C5: the gate case on an `IDLE` line, and the abort case on
a `SINGLE` line with both slots empty. -/
theorem c5_change_buffer_gate_and_underflow_witness :
    vin_change_buffer 0 { emptyOut with state := .idle } =
      ({ emptyOut with state := .idle }, []) ∧
    vin_change_buffer 0 { emptyOut with state := .single } =
      ({ emptyOut with state := .single }, [.devWarn, .devErr]) := by
  constructor
  · exact (c5_change_buffer_gate_and_underflow 0
      { emptyOut with state := .idle }).1 (Or.inr (Or.inr (Or.inr rfl)))
  · exact ((c5_change_buffer_gate_and_underflow 0
      { emptyOut with state := .single }).2 (Or.inl rfl) rfl).1 rfl

/-- Claim C7, counterexample to the claim as stated: a stream-off with the
per-line stream count and the dummy-module stream count both at zero
decrements both to −1 — `vin_set_stream` has no zero check on either, so
the decrement-below-zero protection does not hold for all four counters. -/
theorem c7_stream_count_underflow_cex :
    (vin_set_stream false true lineZero devZero).1.stream_count = -1 ∧
    (vin_set_stream false true lineZero devZero).2.1.dummy_stream_count =
      -1 := by
  decide

/-- Claim C7 (amended): the decrement-at-zero protection holds for the two
power counters — a line power-off at `power_count = 0` leaves the line
untouched and reports, and a device power-off at `power_count = 0` leaves
the device counter at zero, reports (when the link resolves) and performs
no clock/power disable.  The two stream counters are not protected: a
stream-off at zero decrements the per-line stream count and the dummy
stream count to −1 (no line-hardware disable is issued, since the
disable fires only at count 1). -/
theorem c7_refcount_underflow_protection (l : VinLineState) (d : VinDevState)
    (link_ok : Bool) :
    (l.power_count = 0 →
      (vin_set_power false link_ok l d).1 = l ∧
      Event.devErr ∈ (vin_set_power false link_ok l d).2.2) ∧
    (d.power_count = 0 →
      (vin_set_power false link_ok l d).2.1 = d ∧
      Event.clkDisable ∉ (vin_set_power false link_ok l d).2.2 ∧
      Event.pmPut ∉ (vin_set_power false link_ok l d).2.2 ∧
      (link_ok = true → Event.devErr ∈ (vin_set_power false link_ok l d).2.2)) ∧
    (l.stream_count = 0 → link_ok = true →
      (vin_set_stream false link_ok l d).1.stream_count = -1 ∧
      Event.wrIrqEnable false ∉ (vin_set_stream false link_ok l d).2.2) ∧
    (d.dummy_stream_count = 0 →
      (vin_set_stream false link_ok l d).2.1.dummy_stream_count = -1 ∧
      Event.freeDummy ∉ (vin_set_stream false link_ok l d).2.2) := by
  refine ⟨?_, ?_, ?_, ?_⟩
  · intro h
    cases link_ok <;> simp [vin_set_power, h]
  · intro h
    cases link_ok
    · simp [vin_set_power, h]
      split <;> simp_all
    · simp [vin_set_power, h]
      split <;> simp_all
  · intro h hl
    subst hl
    have h1 : ¬(l.stream_count = 1 ∧ l.id = VIN_LINE_WR) := by
      intro hc
      rw [h] at hc
      exact absurd hc.1 (by norm_num)
    constructor
    · simp [vin_set_stream, h, h1]
    · simp [vin_set_stream, h1]
      split <;> simp
  · intro h
    have h1 : ¬(d.dummy_stream_count = 1) := by rw [h]; norm_num
    constructor
    · simp [vin_set_stream, h, h1]
    · cases link_ok <;> simp [vin_set_stream, h1]

/-- Witness for C7 with every counter at zero and a resolving link. -/
theorem c7_refcount_underflow_protection_witness :
    lineZero.power_count = 0 ∧ devZero.power_count = 0 ∧
    lineZero.stream_count = 0 ∧ devZero.dummy_stream_count = 0 ∧
    (vin_set_power false true lineZero devZero).1 = lineZero ∧
    (vin_set_power false true lineZero devZero).2.1 = devZero ∧
    Event.devErr ∈ (vin_set_power false true lineZero devZero).2.2 ∧
    (vin_set_stream false true lineZero devZero).1.stream_count = -1 ∧
    (vin_set_stream false true lineZero devZero).2.1.dummy_stream_count =
      -1 := by
  refine ⟨rfl, rfl, rfl, rfl, ?_, ?_, ?_, ?_, ?_⟩
  · exact ((c7_refcount_underflow_protection lineZero devZero true).1 rfl).1
  · exact ((c7_refcount_underflow_protection lineZero devZero true).2.1 rfl).1
  · exact ((c7_refcount_underflow_protection lineZero devZero true).1 rfl).2
  · exact ((c7_refcount_underflow_protection lineZero devZero
      true).2.2.1 rfl rfl).1
  · exact ((c7_refcount_underflow_protection lineZero devZero
      true).2.2.2 rfl).1

/-- `vin_init_outputs` establishes the single-slot invariant. -/
theorem vin_init_outputs_inv (o : VinOutput) :
    SingleSlotInv (vin_init_outputs o) := by
  simp [SingleSlotInv, vin_init_outputs]

/-- Every engine operation preserves the single-slot invariant: no
operation ever sets `CONTINUOUS`, toggles the active slot away from 0, or
writes slot `buf[1]`. -/
theorem engineStep_inv (id : Nat) (o : VinOutput) (op : EngineOp)
    (h : SingleSlotInv o) : SingleSlotInv (engineStep id o op) := by
  obtain ⟨h1, h2, h3⟩ := h
  cases op with
  | enable =>
    cases hp : o.pending_bufs <;>
      simp [engineStep, vin_enable_output, vin_buf_get_pending, hp, h3,
        vin_output_init_addrs, SingleSlotInv]
  | disable =>
    simp [engineStep, vin_disable_output, SingleSlotInv, h2, h3]
  | queue b =>
    cases hs : o.state <;> cases hb : o.buf0 <;> cases hl : o.last_buffer <;>
      simp [engineStep, vin_queue_buffer, vin_buf_update_on_new, hs, hb, hl,
        vin_buf_add_pending, SingleSlotInv, h2, h3, vin_output_init_addrs,
        setBuf]
    all_goals exact absurd hs h1
  | frameDone ts =>
    by_cases hg : o.state = .off ∨ o.state = .reserved <;>
      simp [engineStep, vin_buffer_done, hg, SingleSlotInv, h1, h2, h3]
  | flush st =>
    cases hl : o.last_buffer <;>
      simp [engineStep, vin_flush_buffers, vin_buf_flush, hl, SingleSlotInv,
        h1, h2]
  | changeBuffer =>
    cases hs : o.state with
    | off =>
      rw [engineStep, change_buffer_gate id o (Or.inl hs)]
      exact ⟨h1, h2, h3⟩
    | stopping =>
      rw [engineStep, change_buffer_gate id o (Or.inr (Or.inl hs))]
      exact ⟨h1, h2, h3⟩
    | reserved =>
      rw [engineStep, change_buffer_gate id o (Or.inr (Or.inr (Or.inl hs)))]
      exact ⟨h1, h2, h3⟩
    | idle =>
      rw [engineStep,
        change_buffer_gate id o (Or.inr (Or.inr (Or.inr hs)))]
      exact ⟨h1, h2, h3⟩
    | continuous => exact absurd hs h1
    | single =>
      cases hb : o.buf0 with
      | some rb =>
        have hgb : getBuf o o.active_buf = some rb := by
          rw [h2]; simpa [getBuf] using hb
        have hd := change_buffer_eq_rotate id o rb (Or.inl hs) hgb
        cases hp : o.pending_bufs with
        | nil =>
          rw [engineStep, hd, rotate_single_nil id o o.active_buf rb hs hp]
          exact ⟨by simp, by simp [h2], by simp [h2, setBuf, h3]⟩
        | cons p ps =>
          rw [engineStep, hd,
            rotate_single_cons id o o.active_buf rb p ps hs hp]
          exact ⟨by simp [hs], by simp [h2], by simp [h2, setBuf, h3]⟩
      | none =>
        have hgb : getBuf o o.active_buf = none := by
          rw [h2]; simpa [getBuf] using hb
        have hgb2 : getBuf o (!o.active_buf) = none := by
          rw [h2]; simpa [getBuf] using h3
        rw [engineStep, change_buffer_abort id o (Or.inl hs) hgb hgb2]
        exact ⟨h1, h2, h3⟩

/-- The single-slot invariant is preserved by any operation sequence. -/
theorem engineRun_inv (id : Nat) (ops : List EngineOp) :
    ∀ o, SingleSlotInv o → SingleSlotInv (engineRun id o ops) := by
  induction ops with
  | nil => intro o h; exact h
  | cons op rest ih => intro o h; exact ih _ (engineStep_inv id o op h)

/-- Claim C9: starting from `vin_init_outputs`, under any sequence of
engine operations (enable, disable, queue, completion, rotation, flush)
the output state never equals `CONTINUOUS`, the active slot index stays 0,
and slot `buf[1]` stays empty — double-buffering is unreachable. -/
theorem c9_second_slot_unreachable (id : Nat) (o : VinOutput)
    (ops : List EngineOp) :
    (engineRun id (vin_init_outputs o) ops).state ≠ .continuous ∧
    (engineRun id (vin_init_outputs o) ops).active_buf = false ∧
    (engineRun id (vin_init_outputs o) ops).buf1 = none :=
  engineRun_inv id ops _ (vin_init_outputs_inv o)

/-- One rotation with a pending buffer `p` at the head: the emitted events
are exactly the installation of `p`'s addresses, the pending tail remains,
the line stays rotation-ready, and queue/slot membership stays
duplicate-free (the containers are merely permuted). -/
theorem rot_step (id : Nat) (o : VinOutput) (p : StfBuffer)
    (ps : List StfBuffer) (hp : o.pending_bufs = p :: ps) (hr : RotReady o) :
    (vin_change_buffer id o).2 = installEvents id p.addr0 p.addr1 ∧
    (vin_change_buffer id o).1.pending_bufs = ps ∧
    RotReady (vin_change_buffer id o).1 ∧
    (QueuesWF o → QueuesWF (vin_change_buffer id o).1) := by
  rcases hr with ⟨hs, hb⟩ | ⟨hs, hb0, hb1⟩
  · obtain ⟨rb, hrb⟩ := Option.isSome_iff_exists.mp hb
    have hd := change_buffer_eq_rotate id o rb (Or.inl hs) hrb
    have pm : (queueIds (vin_change_buffer id o).1).Perm (queueIds o) := by
      rw [hd, rotate_single_cons id o o.active_buf rb p ps hs hp]
      refine List.perm_iff_count.mpr (fun a => ?_)
      cases ha : o.active_buf
      · have hb0 : o.buf0 = some rb := by simpa [getBuf, ha] using hrb
        simp [queueIds, setBuf, ha, hb0, hp, List.count_append,
          List.count_cons]
        omega
      · have hb1 : o.buf1 = some rb := by simpa [getBuf, ha] using hrb
        simp [queueIds, setBuf, ha, hb1, hp, List.count_append,
          List.count_cons]
        omega
    rw [hd, rotate_single_cons id o o.active_buf rb p ps hs hp] at pm ⊢
    refine ⟨by simp, by simp, ?_, ?_⟩
    · exact Or.inl ⟨by simp [hs], by cases ha : o.active_buf <;>
        simp [getBuf, setBuf, ha]⟩
    · intro hwf
      exact pm.nodup_iff.mpr hwf
  · obtain ⟨b0, hb0e⟩ := Option.isSome_iff_exists.mp hb0
    obtain ⟨b1, hb1e⟩ := Option.isSome_iff_exists.mp hb1
    cases ha : o.active_buf
    · have hrb : getBuf o o.active_buf = some b0 := by simp [getBuf, ha, hb0e]
      have hd := change_buffer_eq_rotate id o b0 (Or.inr hs) hrb
      have pm : (queueIds (vin_change_buffer id o).1).Perm (queueIds o) := by
        rw [hd, rotate_cont_cons id o o.active_buf b0 p ps hs hp]
        refine List.perm_iff_count.mpr (fun a => ?_)
        simp [queueIds, setBuf, ha, hb0e, hp, List.count_append,
          List.count_cons]
        omega
      rw [hd, rotate_cont_cons id o o.active_buf b0 p ps hs hp] at pm ⊢
      refine ⟨by simp, by simp [setBuf, ha], ?_, ?_⟩
      · exact Or.inr ⟨by simp [hs], by simp [setBuf, ha],
          by simp [setBuf, ha, hb1e]⟩
      · intro hwf
        exact pm.nodup_iff.mpr hwf
    · have hrb : getBuf o o.active_buf = some b1 := by simp [getBuf, ha, hb1e]
      have hd := change_buffer_eq_rotate id o b1 (Or.inr hs) hrb
      have pm : (queueIds (vin_change_buffer id o).1).Perm (queueIds o) := by
        rw [hd, rotate_cont_cons id o o.active_buf b1 p ps hs hp]
        refine List.perm_iff_count.mpr (fun a => ?_)
        simp [queueIds, setBuf, ha, hb1e, hp, List.count_append,
          List.count_cons]
        omega
      rw [hd, rotate_cont_cons id o o.active_buf b1 p ps hs hp] at pm ⊢
      refine ⟨by simp, by simp [setBuf, ha], ?_, ?_⟩
      · exact Or.inr ⟨by simp [hs], by simp [setBuf, ha, hb0e],
          by simp [setBuf, ha]⟩
      · intro hwf
        exact pm.nodup_iff.mpr hwf

/-- Queuing while `SINGLE`/`CONTINUOUS` appends to the pending queue and
changes nothing else. -/
theorem queue_buffer_single_cont (id : Nat) (o : VinOutput) (b : StfBuffer)
    (h : o.state = .single ∨ o.state = .continuous) :
    vin_queue_buffer id o b =
      ({ o with pending_bufs := o.pending_bufs ++ [b] }, []) := by
  rcases h with h | h <;>
    simp [vin_queue_buffer, vin_buf_update_on_new, h, vin_buf_add_pending]

/-- Queuing a whole list while `SINGLE`/`CONTINUOUS` appends it in arrival
order. -/
theorem queue_list_single_cont (id : Nat) (bs : List StfBuffer) :
    ∀ o : VinOutput, (o.state = .single ∨ o.state = .continuous) →
      vin_queue_list id o bs =
        { o with pending_bufs := o.pending_bufs ++ bs } := by
  induction bs with
  | nil => intro o h; simp [vin_queue_list]
  | cons b rest ih =>
    intro o h
    rw [vin_queue_list, queue_buffer_single_cont id o b h]
    rw [ih _ (by simpa using h)]
    simp

/-- Running one rotation per pending buffer on a rotation-ready line
installs exactly the pending buffers' addresses in FIFO order, and keeps
the queues/slots duplicate-free at every intermediate point. -/
theorem rot_master (id : Nat) (pend : List StfBuffer) :
    ∀ o : VinOutput, o.pending_bufs = pend → RotReady o →
      (rotTrace id pend.length o =
        (pend.map (fun b => installEvents id b.addr0 b.addr1)).flatten) ∧
      (∀ k, k ≤ pend.length → QueuesWF o → QueuesWF (rotIter id k o)) := by
  induction pend with
  | nil =>
    intro o _ _
    refine ⟨by simp [rotTrace], ?_⟩
    intro k hk hwf
    have hk0 : k = 0 := Nat.le_zero.mp hk
    subst hk0
    exact hwf
  | cons p ps ih =>
    intro o hp hr
    obtain ⟨he, hpd, hrr, hwfp⟩ := rot_step id o p ps hp hr
    obtain ⟨ihTrace, ihWf⟩ := ih (vin_change_buffer id o).1 hpd hrr
    constructor
    · rw [List.length_cons, rotTrace, he, ihTrace]
      simp
    · intro k hk hwf
      cases k with
      | zero => exact hwf
      | succ n =>
        rw [rotIter]
        exact ihWf n (by simpa using hk) (hwfp hwf)

/-- Claim C4: buffers queued while the output state is `SINGLE` or
`CONTINUOUS` are appended to the pending queue in arrival order; the
subsequent rotation events install their addresses into the DMA Address
Sink strictly in that FIFO order, never reordered; and, provided the
queued descriptors are fresh and initially no descriptor sits in two
containers, no descriptor is a member of more than one queue/slot at any
point along the rotations. -/
theorem c4_fifo_install_order (id : Nat) (o : VinOutput) (bs : List StfBuffer)
    (hst : o.state = .single ∨ o.state = .continuous) :
    vin_queue_list id o bs = { o with pending_bufs := o.pending_bufs ++ bs } ∧
    (RotReady o →
      rotTrace id (o.pending_bufs ++ bs).length (vin_queue_list id o bs) =
        ((o.pending_bufs ++ bs).map
          (fun b => installEvents id b.addr0 b.addr1)).flatten) ∧
    (RotReady o → QueuesWF o →
      (∀ b ∈ bs, b.bid ∉ queueIds o) →
      (bs.map (fun b => b.bid)).Nodup →
      ∀ k, k ≤ (o.pending_bufs ++ bs).length →
        QueuesWF (rotIter id k (vin_queue_list id o bs))) := by
  have hq := queue_list_single_cont id bs o hst
  have hpend : (vin_queue_list id o bs).pending_bufs = o.pending_bufs ++ bs :=
    by rw [hq]
  refine ⟨hq, ?_, ?_⟩
  · intro hr
    have hr1 : RotReady (vin_queue_list id o bs) := by
      rw [hq]
      rcases hr with ⟨hs, hb⟩ | ⟨hs, h0, h1⟩
      · exact Or.inl ⟨hs, by simpa [getBuf] using hb⟩
      · exact Or.inr ⟨hs, h0, h1⟩
    exact (rot_master id (o.pending_bufs ++ bs) _ hpend hr1).1
  · intro hr hwf hfresh hnodup k hk
    have hr1 : RotReady (vin_queue_list id o bs) := by
      rw [hq]
      rcases hr with ⟨hs, hb⟩ | ⟨hs, h0, h1⟩
      · exact Or.inl ⟨hs, by simpa [getBuf] using hb⟩
      · exact Or.inr ⟨hs, h0, h1⟩
    have hids : (queueIds (vin_queue_list id o bs)).Perm
        (queueIds o ++ bs.map (fun b => b.bid)) := by
      rw [hq]
      refine List.perm_iff_count.mpr (fun a => ?_)
      simp [queueIds, List.count_append]
      omega
    have hwf1 : QueuesWF (vin_queue_list id o bs) := by
      unfold QueuesWF
      rw [hids.nodup_iff, List.nodup_append]
      refine ⟨hwf, hnodup, ?_⟩
      intro a ha1 ha2
      obtain ⟨b, hb, hbe⟩ := List.mem_map.mp ha2
      exact hfresh b hb (hbe ▸ ha1)
    exact (rot_master id (o.pending_bufs ++ bs) _ hpend hr1).2 k hk hwf1

/-- Witness for C4: a `SINGLE` line with `bufA` active; queuing
`[bufB, bufC]` and rotating twice installs `bufB`'s address pair and then
`bufC`'s, and the queues stay duplicate-free. -/
theorem c4_fifo_install_order_witness :
    (({ emptyOut with state := .single, buf0 := some bufA }
        : VinOutput).state = .single ∨
      ({ emptyOut with state := .single, buf0 := some bufA }
        : VinOutput).state = .continuous) ∧
    RotReady { emptyOut with state := .single, buf0 := some bufA } ∧
    QueuesWF { emptyOut with state := .single, buf0 := some bufA } ∧
    vin_queue_list 0 { emptyOut with state := .single, buf0 := some bufA }
        [bufB, bufC] =
      { emptyOut with
          state := .single
          buf0 := some bufA
          pending_bufs := [bufB, bufC] } ∧
    rotTrace 0 2 (vin_queue_list 0
        { emptyOut with state := .single, buf0 := some bufA } [bufB, bufC]) =
      [.setPingAddr 200, .setPongAddr 200, .setPingAddr 300,
        .setPongAddr 300] ∧
    QueuesWF (rotIter 0 2 (vin_queue_list 0
        { emptyOut with state := .single, buf0 := some bufA }
        [bufB, bufC])) := by
  have hc := c4_fifo_install_order 0
    { emptyOut with state := .single, buf0 := some bufA } [bufB, bufC]
    (Or.inl rfl)
  refine ⟨Or.inl rfl, Or.inl ⟨rfl, rfl⟩, by unfold QueuesWF; decide,
    ?_, ?_, ?_⟩
  · exact hc.1.trans (by decide)
  · exact (hc.2.1 (Or.inl ⟨rfl, rfl⟩)).trans (by decide)
  · exact hc.2.2 (Or.inl ⟨rfl, rfl⟩) (by unfold QueuesWF; decide) (by decide)
      (by decide) 2 (by decide)

end StfVin
